import Mathlib

/-!
Shallow embedding of the scrappback backend (`src/server.js`, second variant, and
`src/unnamed/part_000`): a catalog of crawl sources, harvested images and a favorite set,
together with the scrape/cache/delete/favorite operations, and proofs of the specified
properties.

The durable store `db.json` is the `DbData` record (sources, images, favorites); the
in-memory `Map` cache is an association list.  The browser renderer is an external
collaborator and is modelled as a function from a concrete URL to the list of `<img>`
elements of the fully rendered page.  `crypto.randomUUID()` and `Date.now()` are external
inputs and are passed as explicit parameters; all `Date.now()` reads of a single request
are modelled as one instant.
-/

namespace Scrappback

/-- An image record as stored in `db.data.images`. -/
structure Image where
  id : String
  src : String
  alt : String
  source : String
  author : String
  sourceId : Option String
deriving DecidableEq

/-- A source record as stored in `db.data.sources`. -/
structure Source where
  id : String
  url : String
  name : String
deriving DecidableEq

/-- The persisted document: `{ sources: [], images: [], favorites: [] }`. -/
structure DbData where
  sources : List Source
  images : List Image
  favorites : List String
deriving DecidableEq

/-- An `<img>` element of the rendered DOM, as seen by the in-page evaluation
(`img.src`, `img.naturalWidth`, `img.naturalHeight`). -/
structure DomImg where
  src : String
  naturalWidth : Nat
  naturalHeight : Nat
deriving DecidableEq

/-- The result bundle `{ newSource, newImages }` returned by a successful scrape. -/
structure ScrapeBundle where
  newSource : Source
  newImages : List Image
deriving DecidableEq

/-- A cache value `{ data, timestamp }` as stored by `cache.set`. -/
structure CacheEntry where
  data : ScrapeBundle
  timestamp : Nat
deriving DecidableEq

/-- The in-memory `Map` used as scrape cache, as an association list. -/
abbrev Cache := List (String × CacheEntry)

/-- The constant `CACHE_DURATION_MS = 15 * 60 * 1000`. -/
def CACHE_DURATION_MS : Nat := 15 * 60 * 1000

/-- Lookup `cache.get(key)` (also covers `cache.has(key)` via `isSome`). -/
def cacheGet (cache : Cache) (key : String) : Option CacheEntry :=
  (cache.find? (fun p => p.1 == key)).map Prod.snd

/-- Store `cache.set(key, e)`: overwrite any binding of `key`. -/
def cacheSet (cache : Cache) (key : String) (e : CacheEntry) : Cache :=
  (key, e) :: cache.filter (fun p => p.1 ≠ key)

/-- Removal `cache.delete(key)`. -/
def cacheDelete (cache : Cache) (key : String) : Cache :=
  cache.filter (fun p => p.1 ≠ key)

/-- The condition `cache.has(key) && (Date.now() - cache.get(key).timestamp <
CACHE_DURATION_MS)` guarding the fast path.  `Date.now()` values are nonnegative, so the
JavaScript subtraction agrees with truncated subtraction here: both sides make a
not-yet-stored-in-the-past entry (timestamp ≥ now) count as fresh. -/
def cacheHit (cache : Cache) (key : String) (now : Nat) : Bool :=
  match cacheGet cache key with
  | some e => now - e.timestamp < CACHE_DURATION_MS
  | none => false

/-- Worker for `dedupKeepFirst`: `seen` is the set contents so far. -/
def dedupAux (seen : List String) : List String → List String
  | [] => []
  | x :: xs => if x ∈ seen then dedupAux seen xs else x :: dedupAux (x :: seen) xs

/-- Insertion-ordered deduplication, keeping the first occurrence: the semantics of
collecting values into a JavaScript `Set` and reading it back with `Array.from`. -/
def dedupKeepFirst (l : List String) : List String :=
  dedupAux [] l

/-- The in-page evaluation of `scrapeUrl` (second variant of `server.js`): keep `<img>`
elements with `naturalWidth > 100 && naturalHeight > 100` and collect their `src` values
into a `Set`, returned in insertion order. -/
def qualityFilter (imgs : List DomImg) : List String :=
  dedupKeepFirst ((imgs.filter
    (fun im => 100 < im.naturalWidth && 100 < im.naturalHeight)).map DomImg.src)

/-- The `scrapeUrl(url, page)` helper: navigation and scroll stabilisation are performed
by the external renderer (modelled by `render`, giving the rendered page's `<img>`
elements for a concrete URL); the returned value is the filtered, deduplicated `src`
list. -/
def scrapeUrl (render : String → List DomImg) (url : String) : List String :=
  qualityFilter (render url)

/-- Whether the first list is an initial segment of the second. -/
def listStartsWith : List Char → List Char → Bool
  | [], _ => true
  | _ :: _, [] => false
  | p :: ps, c :: cs => p == c && listStartsWith ps cs

/-- Split a character list around the first occurrence of the (nonempty) pattern
`pat`, returning the parts before and after it, or `none` when `pat` does not occur. -/
def splitFirstAux (pat : List Char) : List Char → Option (List Char × List Char)
  | [] => none
  | c :: rest =>
    if listStartsWith pat (c :: rest) then some ([], (c :: rest).drop pat.length)
    else match splitFirstAux pat rest with
      | none => none
      | some (l, r) => some (c :: l, r)

/-- JavaScript `s.replace(pat, rep)` with a string pattern: replaces only the first
occurrence of `pat` and leaves `s` unchanged when `pat` does not occur. -/
def jsReplaceOnce (s pat rep : String) : String :=
  match splitFirstAux pat.data s.data with
  | none => s
  | some (l, r) => ⟨l ++ rep.data ++ r⟩

/-- Modelled from the spec: `new URL(u).hostname` is WHATWG URL parsing performed by the
Node runtime, not code of this repository.  For an absolute http(s) URL without
credentials the hostname is the maximal run of characters after `://` containing none of
`/`, `:`, `?`, `#`. -/
def urlHostname (url : String) : String :=
  let rest := match splitFirstAux [':', '/', '/'] url.data with
    | some (_, r) => r
    | none => url.data
  ⟨rest.takeWhile (fun c => c != '/' && c != ':' && c != '?' && c != '#')⟩

/-- The body of a `POST /api/images/scrape` request; absent fields are `none`. -/
structure ScrapeRequest where
  url : Option String
  urlPattern : Option String
  startPage : Option Nat
  endPage : Option Nat
deriving DecidableEq

/-- JavaScript truthiness of an optional string (`undefined` and `''` are falsy). -/
def truthyStr : Option String → Bool
  | none => false
  | some s => s ≠ ""

/-- JavaScript truthiness of an optional page number (`undefined` and `0` are falsy). -/
def truthyNat : Option Nat → Bool
  | none => false
  | some n => n ≠ 0

/-- The guard `const isMultiPage = urlPattern && startPage && endPage`. -/
def isMultiPage (req : ScrapeRequest) : Bool :=
  truthyStr req.urlPattern && truthyNat req.startPage && truthyNat req.endPage

/-- The fingerprint `const cacheKey = isMultiPage ? urlPattern-startPage-endPage : url`. -/
def cacheKeyOf (req : ScrapeRequest) : String :=
  if isMultiPage req then
    req.urlPattern.getD "" ++ "-" ++ Nat.repr (req.startPage.getD 0) ++ "-" ++
      Nat.repr (req.endPage.getD 0)
  else req.url.getD ""

/-- The page numbers of the loop `for (let i = startPage; i <= endPage; i++)`:
`s, s+1, …, e` (empty when `s > e`). -/
def pageRange (s e : Nat) : List Nat :=
  List.range' s (e + 1 - s)

/-- The concrete URLs the crawl navigates to, in order: each page number substituted for
the first occurrence of the `{page}` placeholder, or the single literal URL. -/
def pagesToVisit (req : ScrapeRequest) : List String :=
  if isMultiPage req then
    (pageRange (req.startPage.getD 0) (req.endPage.getD 0)).map
      (fun i => jsReplaceOnce (req.urlPattern.getD "") "{page}" (Nat.repr i))
  else [req.url.getD ""]

/-- `Array.from(allImageUrls)`: the per-page results accumulated into one `Set` across
all visited pages. -/
def finalImageUrls (render : String → List DomImg) (req : ScrapeRequest) : List String :=
  dedupKeepFirst (((pagesToVisit req).map (scrapeUrl render)).flatten)

/-- The template literal `` `scrape_${Date.now()}_${i}` ``. -/
def mkImageId (now : Nat) (i : Nat) : String :=
  "scrape_" ++ Nat.repr now ++ "_" ++ Nat.repr i

/-- One element of the `newImages` array built by the scrape endpoint. -/
def mkImage (name uuid : String) (now i : Nat) (imageUrl : String) : Image :=
  { id := mkImageId now i
    src := imageUrl
    alt := "Imagem de " ++ name
    source := name
    author := "WebScraper"
    sourceId := some uuid }

/-- The map `finalImageUrls.map((imageUrl, i) => …)`: build one image record per URL, with the
running array index `i`. -/
def buildImages (name uuid : String) (now : Nat) : Nat → List String → List Image
  | _, [] => []
  | i, u :: us => mkImage name uuid now i u :: buildImages name uuid now (i + 1) us

/-- The expression `isMultiPage ? urlPattern : url`: the `url` field of the created source. -/
def sourceUrlOf (req : ScrapeRequest) : String :=
  if isMultiPage req then req.urlPattern.getD "" else req.url.getD ""

/-- The four ways a scrape request can answer: 400 missing input, 200 cached bundle,
404 no qualifying images, 201 created bundle. -/
inductive ScrapeOutcome where
  | validationError
  | cached (bundle : ScrapeBundle)
  | emptyResult
  | created (bundle : ScrapeBundle)
deriving DecidableEq

/-- The observable effect of one scrape request: its response, the persisted document,
the cache, and the list of URLs the renderer was driven to (empty on the fast paths). -/
structure ScrapeResult where
  outcome : ScrapeOutcome
  db : DbData
  cache : Cache
  rendered : List String
deriving DecidableEq

/-- The source record created by a successful scrape: fresh uuid, the pattern (or the
literal URL) as `url`, and the hostname of the pattern with `{page}` replaced by the
literal `"1"` as display name. -/
def newSourceOf (uuid : String) (req : ScrapeRequest) : Source :=
  ⟨uuid, sourceUrlOf req, urlHostname (jsReplaceOnce (sourceUrlOf req) "{page}" "1")⟩

/-- The image records created by a successful scrape: one per accumulated unique URL. -/
def newImagesOf (render : String → List DomImg) (uuid : String) (now : Nat)
    (req : ScrapeRequest) : List Image :=
  buildImages (newSourceOf uuid req).name uuid now 0 (finalImageUrls render req)

/-- The non-cached tail of the scrape endpoint: accumulate URLs over the visited pages,
404 on an empty set, otherwise create the source and images, prepend, persist and fill
the cache. -/
def scrapeCore (render : String → List DomImg) (uuid : String) (now : Nat)
    (req : ScrapeRequest) (db : DbData) (cache : Cache) (key : String) : ScrapeResult :=
  if finalImageUrls render req = [] then ⟨.emptyResult, db, cache, pagesToVisit req⟩
  else
    let newSource := newSourceOf uuid req
    let newImages := newImagesOf render uuid now req
    let db' : DbData := ⟨db.sources ++ [newSource], newImages ++ db.images, db.favorites⟩
    let cache' := cacheSet cache key ⟨⟨newSource, newImages⟩, now⟩
    ⟨.created ⟨newSource, newImages⟩, db', cache', pagesToVisit req⟩

/-- Endpoint `POST /api/images/scrape` (second variant of `server.js`, lines 329–418). -/
def scrape (render : String → List DomImg) (uuid : String) (now : Nat)
    (req : ScrapeRequest) (db : DbData) (cache : Cache) : ScrapeResult :=
  if !truthyStr req.url && !isMultiPage req then ⟨.validationError, db, cache, []⟩
  else
    let key := cacheKeyOf req
    match cacheGet cache key with
    | some e =>
      if now - e.timestamp < CACHE_DURATION_MS then ⟨.cached e.data, db, cache, []⟩
      else scrapeCore render uuid now req db cache key
    | none => scrapeCore render uuid now req db cache key

/-- The archival rewrite `{ ...image, sourceId: null, source: `(Arquivado) ${image.source}` }`. -/
def archiveImage (image : Image) : Image :=
  { image with sourceId := none, source := "(Arquivado) " ++ image.source }

/-- The image rebuild loop of `DELETE /api/sources/:id` (archival variant): images of the
deleted source are kept, archived, only when favorited; all other images are pushed
unchanged. -/
def rebuildImages (favorites : List String) (id : String) : List Image → List Image
  | [] => []
  | image :: rest =>
    if image.sourceId = some id then
      if image.id ∈ favorites then archiveImage image :: rebuildImages favorites id rest
      else rebuildImages favorites id rest
    else image :: rebuildImages favorites id rest

/-- Endpoint `DELETE /api/sources/:id` (archival variant, `server.js` lines 266–289 and
`part_000` lines 35–58).  `none` is the 404 Fonte-não-encontrada answer, which leaves
every piece of state unchanged. -/
def deleteSource (db : DbData) (cache : Cache) (id : String) : Option (DbData × Cache) :=
  match db.sources.find? (fun s => s.id == id) with
  | none => none
  | some sourceToRemove =>
    let sources := db.sources.filter (fun s => s.id ≠ id)
    let images := rebuildImages db.favorites id db.images
    let cache' := if sourceToRemove.url ≠ "" then cacheDelete cache sourceToRemove.url
      else cache
    some (⟨sources, images, db.favorites⟩, cache')

/-- Endpoint `POST /api/favorites`: load the favorites into a `Set`, add or delete the id, store
the set back in insertion order. -/
def setFavorite (favorites : List String) (imageId : String) (favorite : Bool) :
    List String :=
  let s := dedupKeepFirst favorites
  if favorite then (if imageId ∈ s then s else s ++ [imageId])
  else s.filter (fun x => x ≠ imageId)

/-- The `{ newImages }` answer of a sync request. -/
structure SyncResult where
  newImages : List Image
deriving DecidableEq

/-- Modelled from the spec: the body of `app.post('/api/sources/:id/sync')` in
`src/server.js` is elided (only the comment "código de sincronização inalterado"
remains), so the operation is modelled from spec §4.3: re-crawl the Source's original
URL without pagination, compare the freshly found image URLs against the `src` values
already recorded for that Source, and create and prepend new Image records only for URLs
not already present; finding no new URLs yields a successful empty result.  `none`
models the NotFound outcome. -/
def sync (render : String → List DomImg) (now : Nat) (db : DbData) (sourceId : String) :
    Option (SyncResult × DbData) :=
  match db.sources.find? (fun s => s.id == sourceId) with
  | none => none
  | some src =>
    let found := scrapeUrl render src.url
    let existing := (db.images.filter (fun img => img.sourceId = some sourceId)).map
      Image.src
    let freshUrls := found.filter (fun u => u ∉ existing)
    let newImages := buildImages src.name sourceId now 0 freshUrls
    some (⟨newImages⟩, ⟨db.sources, newImages ++ db.images, db.favorites⟩)

/-- The `src` values recorded in the catalog for a given source. -/
def recordedSrcs (db : DbData) (sourceId : String) : List String :=
  (db.images.filter (fun img => img.sourceId = some sourceId)).map Image.src

/-- A sequence of sync calls against one source, each with its own rendered content and
timestamp; a NotFound answer leaves the catalog as it was. -/
def syncSeq (sourceId : String) (steps : List ((String → List DomImg) × Nat))
    (db : DbData) : DbData :=
  steps.foldl (fun d step =>
    match sync step.1 step.2 d sourceId with
    | none => d
    | some (_, d') => d') db

/-- The per-image reconciliation policy applied by the deletion rebuild loop. -/
def archivePolicy (favorites : List String) (id : String) (image : Image) :
    Option Image :=
  if image.sourceId = some id then
    if image.id ∈ favorites then some (archiveImage image) else none
  else some image

/-- The decimal digit list of `n`, most significant first (specification-side mirror of
`Nat.toDigits 10`). -/
def decChars (n : Nat) : List Char :=
  if n < 10 then [Nat.digitChar n]
  else decChars (n / 10) ++ [Nat.digitChar (n % 10)]
termination_by n
decreasing_by
  exact Nat.div_lt_self (by omega) (by omega)

/-- Evaluate a decimal digit list back to the number it denotes. -/
def decVal (l : List Char) : Nat :=
  l.foldl (fun a c => 10 * a + (c.toNat - 48)) 0

/-! ### Concrete instances used by individual claims -/

/-- A catalog with one source and one favorited image of that source. -/
def srcC1 : Source := ⟨"s1", "https://host.test/", "host.test"⟩

def imgC1 : Image :=
  ⟨"i1", "https://host.test/a.jpg", "Imagem de host.test", "host.test", "WebScraper",
    some "s1"⟩

def dbC1 : DbData := ⟨[srcC1], [imgC1], ["i1"]⟩

/-- A catalog with two sources: one favorited image of the first, one of the second. -/
def srcC9a : Source := ⟨"s1", "https://one.test/", "one.test"⟩

def srcC9b : Source := ⟨"s2", "https://two.test/", "two.test"⟩

def imgC9a : Image :=
  ⟨"i1", "https://one.test/a.jpg", "Imagem de one.test", "one.test", "WebScraper",
    some "s1"⟩

def imgC9b : Image :=
  ⟨"i2", "https://two.test/b.jpg", "Imagem de two.test", "two.test", "WebScraper",
    some "s2"⟩

def dbC9 : DbData := ⟨[srcC9a, srcC9b], [imgC9a, imgC9b], ["i1"]⟩

/-- A single-URL request and a cache holding an entry for it stored at time 100. -/
def reqC4 : ScrapeRequest := ⟨some "https://a.test/", none, none, none⟩

def entC4 : CacheEntry := ⟨⟨⟨"s0", "https://a.test/", "a.test"⟩, []⟩, 100⟩

def cacheC4 : Cache := [("https://a.test/", entC4)]

def renC4 : String → List DomImg := fun _ => []

/-- A single-URL request whose rendered page has no qualifying images, against a
nonempty catalog. -/
def reqC6 : ScrapeRequest := ⟨some "https://e.test/", none, none, none⟩

def renC6 : String → List DomImg := fun _ => [⟨"https://e.test/icon.png", 32, 32⟩]

def dbC6 : DbData :=
  ⟨[⟨"s9", "https://nine.test/", "nine.test"⟩],
   [⟨"i9", "https://nine.test/a.jpg", "Imagem de nine.test", "nine.test", "WebScraper",
     some "s9"⟩], ["i9"]⟩

/-- A request carrying a pattern with `startPage = 0` and no `url` field. -/
def reqC10 : ScrapeRequest := ⟨none, some "https://x.test/{page}", some 0, some 3⟩

def renC10 : String → List DomImg := fun _ => [⟨"https://x.test/a.jpg", 200, 200⟩]

/-- A one-page range starting at page 2, over a pattern whose host part contains the
page placeholder. -/
def reqC2 : ScrapeRequest := ⟨none, some "https://p{page}.test/a", some 2, some 2⟩

def renC2 : String → List DomImg := fun _ => [⟨"https://img.test/1.jpg", 200, 200⟩]

def stepC2 : ScrapeResult := scrape renC2 "u1" 0 reqC2 ⟨[], [], []⟩ []

/-- A single-URL request whose page shows the same image URL on two elements. -/
def reqC2w : ScrapeRequest := ⟨some "https://w.test/", none, none, none⟩

def renC2w : String → List DomImg := fun _ =>
  [⟨"https://w.test/u1.jpg", 200, 200⟩, ⟨"https://w.test/u1.jpg", 180, 300⟩,
   ⟨"https://w.test/u2.jpg", 200, 200⟩]

/-- A three-page range, each page yielding two images, no overlap. -/
def reqC5 : ScrapeRequest := ⟨none, some "https://a.test/p/{page}", some 1, some 3⟩

def renC5 : String → List DomImg := fun u =>
  if u = "https://a.test/p/1" then
    [⟨"https://a.test/i1.jpg", 200, 200⟩, ⟨"https://a.test/i2.jpg", 200, 200⟩]
  else if u = "https://a.test/p/2" then
    [⟨"https://a.test/i3.jpg", 200, 200⟩, ⟨"https://a.test/i4.jpg", 200, 200⟩]
  else if u = "https://a.test/p/3" then
    [⟨"https://a.test/i5.jpg", 200, 200⟩, ⟨"https://a.test/i6.jpg", 200, 200⟩]
  else []

/-- Two single-URL crawls against different hosts, used to compare image ids across
crawl invocations. -/
def renC3 : String → List DomImg := fun u =>
  if u = "https://a.test/" then [⟨"https://a.test/x.jpg", 200, 200⟩]
  else [⟨"https://b.test/y.jpg", 200, 200⟩]

def reqC3a : ScrapeRequest := ⟨some "https://a.test/", none, none, none⟩

def reqC3b : ScrapeRequest := ⟨some "https://b.test/", none, none, none⟩

def stepC3a : ScrapeResult := scrape renC3 "u1" 0 reqC3a ⟨[], [], []⟩ []

def stepC3b : ScrapeResult := scrape renC3 "u2" 0 reqC3b stepC3a.db stepC3a.cache

def bC3w1 : ScrapeBundle :=
  ⟨⟨"u1", "https://a.test/", "a.test"⟩,
   [⟨"scrape_0_0", "https://a.test/x.jpg", "Imagem de a.test", "a.test", "WebScraper",
     some "u1"⟩]⟩

def bC3w2 : ScrapeBundle :=
  ⟨⟨"u2", "https://b.test/", "b.test"⟩,
   [⟨"scrape_1_0", "https://b.test/y.jpg", "Imagem de b.test", "b.test", "WebScraper",
     some "u2"⟩]⟩

/-- A catalog with one source and one image of it, and two sync renderings: one finding
a new image URL, one finding only the already-recorded URL. -/
def srcC7 : Source := ⟨"s1", "https://s.test/", "s.test"⟩

def imgC7 : Image :=
  ⟨"i1", "https://s.test/x.jpg", "Imagem de s.test", "s.test", "WebScraper", some "s1"⟩

def dbC7 : DbData := ⟨[srcC7], [imgC7], []⟩

def renC7new : String → List DomImg := fun _ => [⟨"https://s.test/y.jpg", 200, 200⟩]

def renC7old : String → List DomImg := fun _ => [⟨"https://s.test/x.jpg", 200, 200⟩]

/-! ### Deduplication lemmas -/

theorem mem_dedupAux {a : String} :
    ∀ {l seen : List String}, a ∈ dedupAux seen l ↔ a ∈ l ∧ a ∉ seen := by
  intro l
  induction l with
  | nil => intro seen; simp [dedupAux]
  | cons x xs ih =>
    intro seen
    by_cases hx : x ∈ seen
    · rw [dedupAux, if_pos hx, ih]
      simp only [List.mem_cons]
      constructor
      · rintro ⟨hm, hs⟩; exact ⟨Or.inr hm, hs⟩
      · rintro ⟨hm | hm, hs⟩
        · exact absurd (hm ▸ hx) hs
        · exact ⟨hm, hs⟩
    · rw [dedupAux, if_neg hx]
      simp only [List.mem_cons, ih, List.mem_cons, not_or]
      constructor
      · rintro (rfl | ⟨hm, hne, hs⟩)
        · exact ⟨Or.inl rfl, hx⟩
        · exact ⟨Or.inr hm, hs⟩
      · rintro ⟨rfl | hm, hs⟩
        · exact Or.inl rfl
        · by_cases hax : a = x
          · exact Or.inl hax
          · exact Or.inr ⟨hm, hax, hs⟩

theorem nodup_dedupAux : ∀ {l seen : List String}, (dedupAux seen l).Nodup := by
  intro l
  induction l with
  | nil => intro seen; simp [dedupAux]
  | cons x xs ih =>
    intro seen
    by_cases hx : x ∈ seen
    · rw [dedupAux, if_pos hx]; exact ih
    · rw [dedupAux, if_neg hx, List.nodup_cons]
      refine ⟨fun hmem => ?_, ih⟩
      exact (mem_dedupAux.mp hmem).2 (List.mem_cons_self x seen)

theorem dedupAux_eq_self : ∀ {l seen : List String}, l.Nodup →
    (∀ x ∈ l, x ∉ seen) → dedupAux seen l = l := by
  intro l
  induction l with
  | nil => intro seen _ _; rfl
  | cons x xs ih =>
    intro seen hnd hout
    have hx : x ∉ seen := hout x (List.mem_cons_self x xs)
    rw [dedupAux, if_neg hx]
    have hnd' := (List.nodup_cons.mp hnd)
    refine congrArg (x :: ·) (ih hnd'.2 ?_)
    intro y hy
    simp only [List.mem_cons, not_or]
    exact ⟨fun hyx => hnd'.1 (hyx ▸ hy), hout y (List.mem_cons_of_mem x hy)⟩

theorem mem_dedupKeepFirst {a : String} {l : List String} :
    a ∈ dedupKeepFirst l ↔ a ∈ l := by
  simp [dedupKeepFirst, mem_dedupAux]

theorem nodup_dedupKeepFirst {l : List String} : (dedupKeepFirst l).Nodup :=
  nodup_dedupAux

theorem dedupKeepFirst_eq_self {l : List String} (h : l.Nodup) : dedupKeepFirst l = l :=
  dedupAux_eq_self h (by simp)

theorem dedupKeepFirst_idem {l : List String} :
    dedupKeepFirst (dedupKeepFirst l) = dedupKeepFirst l :=
  dedupKeepFirst_eq_self nodup_dedupKeepFirst

/-! ### Decimal rendering: injectivity and digit shape

`Nat.repr` is what the template literal `` `scrape_${Date.now()}_${i}` `` interpolates;
the lemmas below let us separate the two numbers of an image id again. -/

theorem decChars_of_lt {n : Nat} (h : n < 10) : decChars n = [Nat.digitChar n] := by
  rw [decChars, if_pos h]

theorem decChars_of_ge {n : Nat} (h : ¬ n < 10) :
    decChars n = decChars (n / 10) ++ [Nat.digitChar (n % 10)] := by
  rw [decChars, if_neg h]

theorem toDigitsCore_eq_decChars :
    ∀ (fuel n : Nat) (ds : List Char), n < fuel →
      Nat.toDigitsCore 10 fuel n ds = decChars n ++ ds := by
  intro fuel
  induction fuel with
  | zero => intro n ds h; omega
  | succ f ih =>
    intro n ds h
    show (if n / 10 = 0 then Nat.digitChar (n % 10) :: ds
      else Nat.toDigitsCore 10 f (n / 10) (Nat.digitChar (n % 10) :: ds)) =
        decChars n ++ ds
    by_cases h10 : n / 10 = 0
    · have hn : n < 10 := by
        rcases Nat.lt_or_ge n 10 with h' | h'
        · exact h'
        · exact absurd h10 (by
            have : 1 ≤ n / 10 := Nat.one_le_div_iff (by omega) |>.mpr h'
            omega)
      rw [if_pos h10, decChars_of_lt hn, Nat.mod_eq_of_lt hn]
      rfl
    · have hge : ¬ n < 10 := fun hn => h10 (Nat.div_eq_of_lt hn)
      have hdiv : n / 10 < n := Nat.div_lt_self (by omega) (by omega)
      have hlt : n / 10 < f := by omega
      rw [if_neg h10, ih (n / 10) _ hlt, decChars_of_ge hge, List.append_assoc]
      rfl

theorem repr_eq_decChars (n : Nat) : Nat.repr n = ⟨decChars n⟩ := by
  show (Nat.toDigits 10 n).asString = _
  rw [Nat.toDigits, toDigitsCore_eq_decChars (n + 1) n [] (Nat.lt_succ_self n),
    List.append_nil]
  rfl

theorem decVal_append_digit (l : List Char) (c : Char) :
    decVal (l ++ [c]) = 10 * decVal l + (c.toNat - 48) := by
  simp [decVal, List.foldl_append]

theorem digitChar_toNat : ∀ d, d < 10 → (Nat.digitChar d).toNat - 48 = d := by
  decide

theorem decVal_decChars (n : Nat) : decVal (decChars n) = n := by
  induction n using Nat.strong_induction_on with
  | _ n ih =>
    by_cases h : n < 10
    · rw [decChars_of_lt h]
      simpa [decVal] using digitChar_toNat n h
    · rw [decChars_of_ge h, decVal_append_digit,
        ih (n / 10) (Nat.div_lt_self (by omega) (by omega)),
        digitChar_toNat (n % 10) (Nat.mod_lt n (by omega))]
      omega

theorem decChars_injective {m n : Nat} (h : decChars m = decChars n) : m = n := by
  have := congrArg decVal h
  rwa [decVal_decChars, decVal_decChars] at this

theorem natRepr_injective {m n : Nat} (h : Nat.repr m = Nat.repr n) : m = n := by
  rw [repr_eq_decChars, repr_eq_decChars] at h
  exact decChars_injective (congrArg String.data h)

theorem decChars_digits {n : Nat} : ∀ c ∈ decChars n, ∃ d, d < 10 ∧ c = Nat.digitChar d := by
  induction n using Nat.strong_induction_on with
  | _ n ih =>
    intro c hc
    by_cases h : n < 10
    · rw [decChars_of_lt h] at hc
      exact ⟨n, h, List.mem_singleton.mp hc⟩
    · rw [decChars_of_ge h] at hc
      rcases List.mem_append.mp hc with hc | hc
      · exact ih (n / 10) (Nat.div_lt_self (by omega) (by omega)) c hc
      · exact ⟨n % 10, Nat.mod_lt n (by omega), List.mem_singleton.mp hc⟩

theorem digitChar_ne_underscore : ∀ d, d < 10 → Nat.digitChar d ≠ '_' := by
  decide

theorem underscore_not_mem_decChars {n : Nat} : '_' ∉ decChars n := by
  intro h
  obtain ⟨d, hd, hc⟩ := decChars_digits _ h
  exact digitChar_ne_underscore d hd hc.symm

theorem underscore_not_mem_repr {n : Nat} : '_' ∉ (Nat.repr n).data := by
  rw [repr_eq_decChars]
  exact underscore_not_mem_decChars

/-- Unique decomposition around a separator that occurs in neither side. -/
theorem sep_decomp : ∀ {l1 l2 r1 r2 : List Char}, '_' ∉ l1 → '_' ∉ l2 →
    l1 ++ '_' :: r1 = l2 ++ '_' :: r2 → l1 = l2 ∧ r1 = r2 := by
  intro l1
  induction l1 with
  | nil =>
    intro l2 r1 r2 _ h2 h
    cases l2 with
    | nil => exact ⟨rfl, by simpa using h⟩
    | cons c l2' =>
      exfalso
      have hc := (List.cons.injEq _ _ _ _).mp (by simpa using h)
      exact h2 (hc.1 ▸ List.mem_cons_self c l2')
  | cons a l1' ih =>
    intro l2 r1 r2 h1 h2 h
    cases l2 with
    | nil =>
      exfalso
      have hc := (List.cons.injEq _ _ _ _).mp (by simpa using h)
      exact h1 (hc.1 ▸ List.mem_cons_self a l1')
    | cons c l2' =>
      have hc := (List.cons.injEq _ _ _ _).mp (by simpa using h)
      have h1' : '_' ∉ l1' := fun hm => h1 (List.mem_cons_of_mem a hm)
      have h2' : '_' ∉ l2' := fun hm => h2 (List.mem_cons_of_mem c hm)
      obtain ⟨hl, hr⟩ := ih h1' h2' hc.2
      exact ⟨by rw [hc.1, hl], hr⟩

theorem mkImageId_injective {t1 i1 t2 i2 : Nat}
    (h : mkImageId t1 i1 = mkImageId t2 i2) : t1 = t2 ∧ i1 = i2 := by
  have hd := congrArg String.data h
  simp only [mkImageId, String.data_append] at hd
  rw [List.append_assoc, List.append_assoc, List.append_assoc, List.append_assoc] at hd
  have hd' := List.append_cancel_left hd
  rw [← List.append_assoc, ← List.append_assoc] at hd'
  have hsep : ("_".data ++ (Nat.repr i1).data) = '_' :: (Nat.repr i1).data := rfl
  have hsep2 : ("_".data ++ (Nat.repr i2).data) = '_' :: (Nat.repr i2).data := rfl
  rw [List.append_assoc, List.append_assoc, hsep, hsep2] at hd'
  obtain ⟨ht, hi⟩ := sep_decomp underscore_not_mem_repr underscore_not_mem_repr hd'
  exact ⟨natRepr_injective (String.ext ht), natRepr_injective (String.ext hi)⟩

/-! ### Image construction lemmas -/

theorem buildImages_map_src (name uuid : String) (now : Nat) :
    ∀ (i : Nat) (urls : List String),
      (buildImages name uuid now i urls).map Image.src = urls := by
  intro i urls
  induction urls generalizing i with
  | nil => rfl
  | cons u us ih => simp [buildImages, mkImage, ih]

theorem buildImages_sourceId (name uuid : String) (now : Nat) :
    ∀ (i : Nat) (urls : List String), ∀ img ∈ buildImages name uuid now i urls,
      img.sourceId = some uuid := by
  intro i urls
  induction urls generalizing i with
  | nil => intro img h; cases h
  | cons u us ih =>
    intro img h
    rcases List.mem_cons.mp h with rfl | h
    · rfl
    · exact ih (i + 1) img h

theorem buildImages_id (name uuid : String) (now : Nat) :
    ∀ (i : Nat) (urls : List String), ∀ img ∈ buildImages name uuid now i urls,
      ∃ k, i ≤ k ∧ img.id = mkImageId now k := by
  intro i urls
  induction urls generalizing i with
  | nil => intro img h; cases h
  | cons u us ih =>
    intro img h
    rcases List.mem_cons.mp h with rfl | h
    · exact ⟨i, Nat.le_refl i, rfl⟩
    · obtain ⟨k, hk, hid⟩ := ih (i + 1) img h
      exact ⟨k, by omega, hid⟩

theorem buildImages_nodup_id (name uuid : String) (now : Nat) :
    ∀ (i : Nat) (urls : List String),
      ((buildImages name uuid now i urls).map Image.id).Nodup := by
  intro i urls
  induction urls generalizing i with
  | nil => simp [buildImages]
  | cons u us ih =>
    simp only [buildImages, List.map_cons, List.nodup_cons]
    refine ⟨fun hmem => ?_, ih (i + 1)⟩
    obtain ⟨img, hin, hid⟩ := List.mem_map.mp hmem
    obtain ⟨k, hk, hkid⟩ := buildImages_id name uuid now (i + 1) us img hin
    have := mkImageId_injective (hid.symm.trans hkid)
    omega

theorem buildImages_length (name uuid : String) (now : Nat) :
    ∀ (i : Nat) (urls : List String),
      (buildImages name uuid now i urls).length = urls.length := by
  intro i urls
  induction urls generalizing i with
  | nil => rfl
  | cons u us ih => simp [buildImages, ih]

/-! ### Page range and accumulated URL lemmas -/

theorem mem_pageRange {s e i : Nat} :
    i ∈ pageRange s e ↔ s ≤ i ∧ i ≤ e := by
  rw [pageRange, List.mem_range']
  constructor
  · rintro ⟨k, hk, rfl⟩; omega
  · intro ⟨h1, h2⟩; exact ⟨i - s, by omega, by omega⟩

theorem mem_finalImageUrls {render : String → List DomImg} {req : ScrapeRequest}
    {u : String} :
    u ∈ finalImageUrls render req ↔ ∃ p ∈ pagesToVisit req, u ∈ scrapeUrl render p := by
  rw [finalImageUrls, mem_dedupKeepFirst, List.mem_flatten]
  constructor
  · rintro ⟨l, hl, hu⟩
    obtain ⟨p, hp, rfl⟩ := List.mem_map.mp hl
    exact ⟨p, hp, hu⟩
  · rintro ⟨p, hp, hu⟩
    exact ⟨scrapeUrl render p, List.mem_map.mpr ⟨p, hp, rfl⟩, hu⟩

theorem nodup_finalImageUrls {render : String → List DomImg} {req : ScrapeRequest} :
    (finalImageUrls render req).Nodup :=
  nodup_dedupKeepFirst

/-! ### Deletion lemmas -/

theorem rebuildImages_eq_filterMap (favorites : List String) (id : String) :
    ∀ images : List Image,
      rebuildImages favorites id images = images.filterMap (archivePolicy favorites id) := by
  intro images
  induction images with
  | nil => rfl
  | cons image rest ih =>
    by_cases hs : image.sourceId = some id
    · by_cases hf : image.id ∈ favorites
      · rw [rebuildImages, if_pos hs, if_pos hf, ih, List.filterMap_cons]
        simp [archivePolicy, hs, hf]
      · rw [rebuildImages, if_pos hs, if_neg hf, ih, List.filterMap_cons]
        simp [archivePolicy, hs, hf]
    · rw [rebuildImages, if_neg hs, ih, List.filterMap_cons]
      simp [archivePolicy, hs]

theorem archivePolicy_of_ne {favorites : List String} {id : String} {image : Image}
    (h : image.sourceId ≠ some id) : archivePolicy favorites id image = some image := by
  rw [archivePolicy, if_neg h]

theorem deleteSource_some {db : DbData} {cache : Cache} {id : String}
    {db' : DbData} {cache' : Cache}
    (h : deleteSource db cache id = some (db', cache')) :
    db'.sources = db.sources.filter (fun s => s.id ≠ id) ∧
    db'.images = db.images.filterMap (archivePolicy db.favorites id) ∧
    db'.favorites = db.favorites := by
  rw [deleteSource] at h
  cases hf : db.sources.find? (fun s => s.id == id) with
  | none => rw [hf] at h; cases h
  | some s =>
    rw [hf] at h
    simp only [Option.some.injEq, Prod.mk.injEq] at h
    obtain ⟨hdb, _⟩ := h
    rw [← hdb]
    exact ⟨rfl, rebuildImages_eq_filterMap _ _ _, rfl⟩

/-! ### Scrape unfolding lemmas -/

theorem scrape_eq_validation {render : String → List DomImg} {uuid : String} {now : Nat}
    {req : ScrapeRequest} {db : DbData} {cache : Cache}
    (h : truthyStr req.url = false) (h2 : isMultiPage req = false) :
    scrape render uuid now req db cache = ⟨.validationError, db, cache, []⟩ := by
  rw [scrape]
  simp [h, h2]

theorem scrape_eq_hit {render : String → List DomImg} {uuid : String} {now : Nat}
    {req : ScrapeRequest} {db : DbData} {cache : Cache} {e : CacheEntry}
    (hval : truthyStr req.url = true ∨ isMultiPage req = true)
    (hget : cacheGet cache (cacheKeyOf req) = some e)
    (hfresh : now - e.timestamp < CACHE_DURATION_MS) :
    scrape render uuid now req db cache = ⟨.cached e.data, db, cache, []⟩ := by
  rw [scrape]
  have hcond : (!truthyStr req.url && !isMultiPage req) = false := by
    rcases hval with h | h <;> simp [h]
  rw [if_neg (by simp [hcond])]
  simp only [hget, hfresh, if_true]

theorem scrape_eq_core {render : String → List DomImg} {uuid : String} {now : Nat}
    {req : ScrapeRequest} {db : DbData} {cache : Cache}
    (hval : truthyStr req.url = true ∨ isMultiPage req = true)
    (hmiss : cacheHit cache (cacheKeyOf req) now = false) :
    scrape render uuid now req db cache =
      scrapeCore render uuid now req db cache (cacheKeyOf req) := by
  rw [scrape]
  have hcond : (!truthyStr req.url && !isMultiPage req) = false := by
    rcases hval with h | h <;> simp [h]
  rw [if_neg (by simp [hcond])]
  rw [cacheHit] at hmiss
  cases hget : cacheGet cache (cacheKeyOf req) with
  | none => simp only [hget]
  | some e =>
    rw [hget] at hmiss
    simp only [decide_eq_false_iff_not] at hmiss
    simp only [hget, hmiss, if_false]

theorem scrapeCore_eq_empty {render : String → List DomImg} {uuid : String} {now : Nat}
    {req : ScrapeRequest} {db : DbData} {cache : Cache} {key : String}
    (h : finalImageUrls render req = []) :
    scrapeCore render uuid now req db cache key =
      ⟨.emptyResult, db, cache, pagesToVisit req⟩ := by
  rw [scrapeCore, if_pos h]

theorem scrapeCore_eq_created {render : String → List DomImg} {uuid : String} {now : Nat}
    {req : ScrapeRequest} {db : DbData} {cache : Cache} {key : String}
    (h : finalImageUrls render req ≠ []) :
    scrapeCore render uuid now req db cache key =
      ⟨.created ⟨newSourceOf uuid req, newImagesOf render uuid now req⟩,
        ⟨db.sources ++ [newSourceOf uuid req],
          newImagesOf render uuid now req ++ db.images, db.favorites⟩,
        cacheSet cache key ⟨⟨newSourceOf uuid req, newImagesOf render uuid now req⟩, now⟩,
        pagesToVisit req⟩ := by
  rw [scrapeCore, if_neg h]

/-! ### setFavorite lemmas -/

theorem setFavorite_true_mem {favorites : List String} {imageId : String}
    (h : imageId ∈ dedupKeepFirst favorites) :
    setFavorite favorites imageId true = dedupKeepFirst favorites := by
  simp [setFavorite, h]

theorem setFavorite_true_not_mem {favorites : List String} {imageId : String}
    (h : imageId ∉ dedupKeepFirst favorites) :
    setFavorite favorites imageId true = dedupKeepFirst favorites ++ [imageId] := by
  simp [setFavorite, h]

theorem setFavorite_false_eq (favorites : List String) (imageId : String) :
    setFavorite favorites imageId false =
      (dedupKeepFirst favorites).filter (fun x => x ≠ imageId) := by
  simp [setFavorite]

/-- C8: `setFavorite` is idempotent: applying `setFavorite(imageId, true)` twice yields
the same Favorite set as applying it once, likewise for `false`; and applying `false`
leaves exactly the members different from `imageId` (so `false` on an id not in the set
changes nothing). -/
theorem setFavorite_idempotent (favorites : List String) (imageId : String) :
    setFavorite (setFavorite favorites imageId true) imageId true =
      setFavorite favorites imageId true ∧
    setFavorite (setFavorite favorites imageId false) imageId false =
      setFavorite favorites imageId false ∧
    (∀ x, x ∈ setFavorite favorites imageId false ↔ (x ∈ favorites ∧ x ≠ imageId)) := by
  have hnd : (dedupKeepFirst favorites).Nodup := nodup_dedupKeepFirst
  refine ⟨?_, ?_, ?_⟩
  · by_cases h : imageId ∈ dedupKeepFirst favorites
    · rw [setFavorite_true_mem h,
        setFavorite_true_mem (by rw [dedupKeepFirst_idem]; exact h),
        dedupKeepFirst_idem]
    · rw [setFavorite_true_not_mem h]
      have hnd2 : (dedupKeepFirst favorites ++ [imageId]).Nodup := by
        simp [List.nodup_append, hnd, h]
      have hdd : dedupKeepFirst (dedupKeepFirst favorites ++ [imageId]) =
          dedupKeepFirst favorites ++ [imageId] := dedupKeepFirst_eq_self hnd2
      rw [setFavorite_true_mem (by rw [hdd]; exact List.mem_append_right _ (by simp))]
      exact hdd
  · rw [setFavorite_false_eq, setFavorite_false_eq,
      dedupKeepFirst_eq_self (hnd.filter _), List.filter_filter]
    simp
  · intro x
    rw [setFavorite_false_eq]
    simp [List.mem_filter, mem_dedupKeepFirst]

/-! ### C1: deletion applies the archival policy, with prefix "(Arquivado) " -/

/-- C1 counterexample: at a catalog with one source `s1` and one favorited image of it,
deletion retains the image but labels it `"(Arquivado) host.test"`, which is not
`"(Archived) " ++ "host.test"` as the claim states. -/
theorem deleteSource_archived_label_counterexample :
    (deleteSource dbC1 [] "s1").map (fun p => p.1.images.map Image.source) =
      some ["(Arquivado) host.test"] ∧
    "(Arquivado) host.test" ≠ "(Archived) " ++ "host.test" := by
  exact ⟨by decide, by decide⟩

/-- C1 (amended): for every catalog state containing the source id, `deleteSource`
removes the Source record, and every Image of that source is retained (rewritten with
`sourceId = null` and the string `"(Arquivado) "` prepended to its source label) exactly
when its id is in the Favorite set, and discarded otherwise; images of other sources
pass through unchanged. -/
theorem deleteSource_archival (db : DbData) (cache : Cache) (id : String)
    (db' : DbData) (cache' : Cache)
    (h : deleteSource db cache id = some (db', cache')) :
    db'.sources = db.sources.filter (fun s => s.id ≠ id) ∧
    (∀ img, img ∈ db'.images ↔
      ((img ∈ db.images ∧ img.sourceId ≠ some id) ∨
       (∃ orig, orig ∈ db.images ∧ orig.sourceId = some id ∧ orig.id ∈ db.favorites ∧
         img = archiveImage orig))) := by
  obtain ⟨hs, hi, _⟩ := deleteSource_some h
  refine ⟨hs, fun img => ?_⟩
  rw [hi, List.mem_filterMap]
  constructor
  · rintro ⟨a, ha, hpol⟩
    by_cases hsid : a.sourceId = some id
    · by_cases hfav : a.id ∈ db.favorites
      · rw [archivePolicy, if_pos hsid, if_pos hfav, Option.some.injEq] at hpol
        exact Or.inr ⟨a, ha, hsid, hfav, hpol.symm⟩
      · rw [archivePolicy, if_pos hsid, if_neg hfav] at hpol
        cases hpol
    · rw [archivePolicy_of_ne hsid, Option.some.injEq] at hpol
      exact Or.inl ⟨hpol ▸ ha, hpol ▸ hsid⟩
  · rintro (⟨hm, hne⟩ | ⟨orig, hm, hsid, hfav, rfl⟩)
    · exact ⟨img, hm, archivePolicy_of_ne hne⟩
    · exact ⟨orig, hm, by rw [archivePolicy, if_pos hsid, if_pos hfav]⟩

/-- C1 witness: the amended theorem applied at the concrete catalog `dbC1`. -/
theorem deleteSource_archival_witness :
    deleteSource dbC1 [] "s1" = some (⟨[], [archiveImage imgC1], ["i1"]⟩, []) ∧
    (⟨[], [archiveImage imgC1], ["i1"]⟩ : DbData).sources =
      dbC1.sources.filter (fun s => s.id ≠ "s1") ∧
    (archiveImage imgC1 ∈ (⟨[], [archiveImage imgC1], ["i1"]⟩ : DbData).images ↔
      ((archiveImage imgC1 ∈ dbC1.images ∧ (archiveImage imgC1).sourceId ≠ some "s1") ∨
       (∃ orig, orig ∈ dbC1.images ∧ orig.sourceId = some "s1" ∧
         orig.id ∈ dbC1.favorites ∧ archiveImage imgC1 = archiveImage orig))) :=
  ⟨by decide,
   (deleteSource_archival dbC1 [] "s1" ⟨[], [archiveImage imgC1], ["i1"]⟩ []
     (by decide)).1,
   (deleteSource_archival dbC1 [] "s1" ⟨[], [archiveImage imgC1], ["i1"]⟩ []
     (by decide)).2 (archiveImage imgC1)⟩

/-! ### C9: deletion is a frame for images of other sources -/

/-- C9: `deleteSource` rebuilds the image list as an order-preserving `filterMap` of the
old one, and the policy maps every image whose `sourceId` differs from the deleted id to
itself unchanged — so all such images survive with all fields identical and the relative
order of all retained images is preserved. -/
theorem deleteSource_frame (db : DbData) (cache : Cache) (id : String)
    (db' : DbData) (cache' : Cache)
    (h : deleteSource db cache id = some (db', cache')) :
    db'.images = db.images.filterMap (archivePolicy db.favorites id) ∧
    (∀ img, img.sourceId ≠ some id → archivePolicy db.favorites id img = some img) :=
  ⟨(deleteSource_some h).2.1, fun _ hn => archivePolicy_of_ne hn⟩

/-- C9 witness: the frame theorem applied at a concrete two-source catalog; the image of
the surviving source passes through the policy unchanged. -/
theorem deleteSource_frame_witness :
    deleteSource dbC9 [] "s1" = some (⟨[srcC9b], [archiveImage imgC9a, imgC9b], ["i1"]⟩, []) ∧
    (⟨[srcC9b], [archiveImage imgC9a, imgC9b], ["i1"]⟩ : DbData).images =
      dbC9.images.filterMap (archivePolicy dbC9.favorites "s1") ∧
    archivePolicy dbC9.favorites "s1" imgC9b = some imgC9b :=
  ⟨by decide,
   (deleteSource_frame dbC9 [] "s1" ⟨[srcC9b], [archiveImage imgC9a, imgC9b], ["i1"]⟩ []
     (by decide)).1,
   (deleteSource_frame dbC9 [] "s1" ⟨[srcC9b], [archiveImage imgC9a, imgC9b], ["i1"]⟩ []
     (by decide)).2 imgC9b (by decide)⟩

/-! ### C4: cache TTL -/

/-- C4: the crawl answers from the cache — returning the stored bundle with the catalog
untouched and no page rendered — exactly when an entry for the target's fingerprint was
stored strictly less than `CACHE_DURATION_MS` (15 minutes) before the lookup; with no
such fresh entry, the crawl proceeds to render every target page and never answers
`cached`. -/
theorem scrape_cache_ttl (render : String → List DomImg) (uuid : String) (now : Nat)
    (req : ScrapeRequest) (db : DbData) (cache : Cache)
    (hval : truthyStr req.url = true ∨ isMultiPage req = true) :
    ((∃ e, cacheGet cache (cacheKeyOf req) = some e ∧
        now - e.timestamp < CACHE_DURATION_MS) →
      ∃ e, cacheGet cache (cacheKeyOf req) = some e ∧
        scrape render uuid now req db cache = ⟨.cached e.data, db, cache, []⟩) ∧
    ((∀ e, cacheGet cache (cacheKeyOf req) = some e →
        ¬ now - e.timestamp < CACHE_DURATION_MS) →
      (∀ b, (scrape render uuid now req db cache).outcome ≠ .cached b) ∧
      (scrape render uuid now req db cache).rendered = pagesToVisit req) := by
  constructor
  · rintro ⟨e, hget, hfresh⟩
    exact ⟨e, hget, scrape_eq_hit hval hget hfresh⟩
  · intro hstale
    have hmiss : cacheHit cache (cacheKeyOf req) now = false := by
      rw [cacheHit]
      cases hget : cacheGet cache (cacheKeyOf req) with
      | none => rfl
      | some e => simpa using hstale e hget
    rw [scrape_eq_core hval hmiss]
    by_cases hne : finalImageUrls render req = []
    · rw [scrapeCore_eq_empty hne]
      exact ⟨(fun b h => by cases h), rfl⟩
    · rw [scrapeCore_eq_created hne]
      exact ⟨(fun b h => by cases h), rfl⟩

/-- C4 witness: at time 200 the entry stored at time 100 is fresh and is returned with
no rendering; at time 1000100 its age exceeds the TTL and the crawl renders the page. -/
theorem scrape_cache_ttl_witness :
    (truthyStr reqC4.url = true ∨ isMultiPage reqC4 = true) ∧
    (∃ e, cacheGet cacheC4 (cacheKeyOf reqC4) = some e ∧
      scrape renC4 "u" 200 reqC4 ⟨[], [], []⟩ cacheC4 =
        ⟨.cached e.data, ⟨[], [], []⟩, cacheC4, []⟩) ∧
    ((∀ b, (scrape renC4 "u" 1000100 reqC4 ⟨[], [], []⟩ cacheC4).outcome ≠ .cached b) ∧
      (scrape renC4 "u" 1000100 reqC4 ⟨[], [], []⟩ cacheC4).rendered =
        pagesToVisit reqC4) :=
  ⟨Or.inl (by decide),
   (scrape_cache_ttl renC4 "u" 200 reqC4 ⟨[], [], []⟩ cacheC4 (Or.inl (by decide))).1
     ⟨entC4, by decide, by decide⟩,
   (scrape_cache_ttl renC4 "u" 1000100 reqC4 ⟨[], [], []⟩ cacheC4
       (Or.inl (by decide))).2
     (fun e he => by
       have heq : e = entC4 := by
         have h0 : cacheGet cacheC4 (cacheKeyOf reqC4) = some entC4 := by decide
         rw [h0, Option.some.injEq] at he
         exact he.symm
       subst heq
       decide)⟩

/-! ### C6: empty result leaves everything unchanged -/

/-- C6: a non-cached crawl whose accumulated set of qualifying URLs is empty answers
`emptyResult` (the 404 "no qualifying content" response, not a system error) and leaves
the catalog and the cache exactly as they were: no Source, no Image, no cache entry. -/
theorem scrape_empty_result (render : String → List DomImg) (uuid : String) (now : Nat)
    (req : ScrapeRequest) (db : DbData) (cache : Cache)
    (hval : truthyStr req.url = true ∨ isMultiPage req = true)
    (hmiss : cacheHit cache (cacheKeyOf req) now = false)
    (hempty : finalImageUrls render req = []) :
    scrape render uuid now req db cache = ⟨.emptyResult, db, cache, pagesToVisit req⟩ := by
  rw [scrape_eq_core hval hmiss, scrapeCore_eq_empty hempty]

/-- C6 witness: a page holding only a 32×32 icon yields no qualifying URL; the crawl
answers `emptyResult` and the nonempty catalog `dbC6` is untouched. -/
theorem scrape_empty_result_witness :
    (truthyStr reqC6.url = true ∨ isMultiPage reqC6 = true) ∧
    cacheHit [] (cacheKeyOf reqC6) 0 = false ∧
    finalImageUrls renC6 reqC6 = [] ∧
    scrape renC6 "u" 0 reqC6 dbC6 [] =
      ⟨.emptyResult, dbC6, [], pagesToVisit reqC6⟩ :=
  ⟨Or.inl (by decide), by decide, by decide,
   scrape_empty_result renC6 "u" 0 reqC6 dbC6 [] (Or.inl (by decide)) (by decide)
     (by decide)⟩

/-! ### C10: truthiness of the multi-page guard -/

/-- C10: a request is treated as multi-page exactly when `urlPattern`, `startPage` and
`endPage` are all truthy; a request with `startPage = 0` (or `endPage = 0`) is never a
page-range crawl, and if it also omits `url` it is rejected as a validation error with
no side effect on catalog, cache, or renderer. -/
theorem scrape_zero_page_validation (render : String → List DomImg) (uuid : String)
    (now : Nat) (req : ScrapeRequest) (db : DbData) (cache : Cache)
    (h0 : req.startPage = some 0 ∨ req.endPage = some 0) :
    (isMultiPage req = true ↔ (truthyStr req.urlPattern = true ∧
      truthyNat req.startPage = true ∧ truthyNat req.endPage = true)) ∧
    isMultiPage req = false ∧
    (req.url = none →
      scrape render uuid now req db cache = ⟨.validationError, db, cache, []⟩) := by
  have hmp : isMultiPage req = false := by
    rcases h0 with h | h <;> simp [isMultiPage, h, truthyNat]
  refine ⟨?_, hmp, fun hurl => scrape_eq_validation (by rw [hurl]; rfl) hmp⟩
  simp [isMultiPage, Bool.and_eq_true, and_assoc]

/-- C10 witness: the pattern request with `startPage = 0` and no `url` is not
multi-page and is rejected without side effects, although its pattern is truthy and the
page would have yielded an image. -/
theorem scrape_zero_page_validation_witness :
    reqC10.startPage = some 0 ∧
    isMultiPage reqC10 = false ∧
    scrape renC10 "u" 0 reqC10 dbC6 [] = ⟨.validationError, dbC6, [], []⟩ ∧
    truthyStr reqC10.urlPattern = true :=
  ⟨rfl,
   (scrape_zero_page_validation renC10 "u" 0 reqC10 dbC6 [] (Or.inl rfl)).2.1,
   (scrape_zero_page_validation renC10 "u" 0 reqC10 dbC6 [] (Or.inl rfl)).2.2 rfl,
   by decide⟩

/-! ### C2: successful crawl creates the source and the deduplicated images -/

/-- C2 counterexample: for the one-page range starting at page 2 over the pattern
`https://p{page}.test/a`, the crawl succeeds, visits only `https://p2.test/a` (whose
hostname is `p2.test`), yet names the created source `p1.test` — the hostname of the
pattern with the placeholder replaced by `"1"` — so the source name is not the hostname
of the first concrete URL. -/
theorem scrape_source_name_counterexample :
    stepC2.outcome = .created ⟨⟨"u1", "https://p{page}.test/a", "p1.test"⟩,
      [⟨"scrape_0_0", "https://img.test/1.jpg", "Imagem de p1.test", "p1.test",
        "WebScraper", some "u1"⟩]⟩ ∧
    stepC2.rendered = ["https://p2.test/a"] ∧
    urlHostname "https://p2.test/a" = "p2.test" ∧
    ("p1.test" : String) ≠ "p2.test" :=
  ⟨by decide, by decide, by decide, by decide⟩

/-- C2 (amended): every successful (non-cached, non-empty) crawl appends exactly one new
Source — whose name is the hostname of the pattern (or url) with the first occurrence of
the `{page}` placeholder replaced by the literal `"1"`, which coincides with the first
crawled URL whenever that substitution does not change the host part —, creates exactly
one new Image per distinct qualifying URL (a URL rendered twice yields one entry), makes
every new Image reference the new Source, prepends the new Images to the existing image
list, and returns the `{newSource, newImages}` bundle, which is also stored in the
cache. -/
theorem scrape_created (render : String → List DomImg) (uuid : String) (now : Nat)
    (req : ScrapeRequest) (db : DbData) (cache : Cache)
    (hval : truthyStr req.url = true ∨ isMultiPage req = true)
    (hmiss : cacheHit cache (cacheKeyOf req) now = false)
    (hne : finalImageUrls render req ≠ []) :
    ∃ newSource newImages,
      scrape render uuid now req db cache =
        ⟨.created ⟨newSource, newImages⟩,
          ⟨db.sources ++ [newSource], newImages ++ db.images, db.favorites⟩,
          cacheSet cache (cacheKeyOf req) ⟨⟨newSource, newImages⟩, now⟩,
          pagesToVisit req⟩ ∧
      newSource.name = urlHostname (jsReplaceOnce (sourceUrlOf req) "{page}" "1") ∧
      newImages.map Image.src = finalImageUrls render req ∧
      (newImages.map Image.src).Nodup ∧
      (∀ img ∈ newImages, img.sourceId = some newSource.id) := by
  refine ⟨newSourceOf uuid req, newImagesOf render uuid now req, ?_, rfl, ?_, ?_, ?_⟩
  · rw [scrape_eq_core hval hmiss, scrapeCore_eq_created hne]
  · exact buildImages_map_src _ _ _ _ _
  · rw [newImagesOf, buildImages_map_src]
    exact nodup_finalImageUrls
  · intro img h
    exact buildImages_sourceId _ _ _ _ _ img h

/-- C2 witness: a page showing the same URL on two qualifying elements plus one other
URL yields exactly two new images, prepended, referencing the one new source. -/
theorem scrape_created_witness :
    (truthyStr reqC2w.url = true ∨ isMultiPage reqC2w = true) ∧
    cacheHit [] (cacheKeyOf reqC2w) 5 = false ∧
    finalImageUrls renC2w reqC2w = ["https://w.test/u1.jpg", "https://w.test/u2.jpg"] ∧
    (∃ newSource newImages,
      scrape renC2w "u9" 5 reqC2w ⟨[], [], []⟩ [] =
        ⟨.created ⟨newSource, newImages⟩,
          ⟨[] ++ [newSource], newImages ++ [], []⟩,
          cacheSet [] (cacheKeyOf reqC2w) ⟨⟨newSource, newImages⟩, 5⟩,
          pagesToVisit reqC2w⟩ ∧
      newSource.name = urlHostname (jsReplaceOnce (sourceUrlOf reqC2w) "{page}" "1") ∧
      newImages.map Image.src = finalImageUrls renC2w reqC2w ∧
      (newImages.map Image.src).Nodup ∧
      (∀ img ∈ newImages, img.sourceId = some newSource.id)) :=
  ⟨Or.inl (by decide), by decide, by decide,
   scrape_created renC2w "u9" 5 reqC2w ⟨[], [], []⟩ [] (Or.inl (by decide)) (by decide)
     (by decide)⟩

/-! ### C5: multi-page crawls cover the whole inclusive range -/

/-- C5: a non-cached multi-page crawl with `startPage ≤ endPage` visits the page URL of
every number from `startPage` to `endPage` inclusive, its accumulated URL set is the
deduplicated union of the per-page qualifying URLs (a URL belongs to the result exactly
when some in-range page yields it), and on a nonempty result the created images carry
exactly those URLs. -/
theorem scrape_multipage (render : String → List DomImg) (uuid : String) (now : Nat)
    (req : ScrapeRequest) (db : DbData) (cache : Cache)
    (hmp : isMultiPage req = true)
    (_hse : req.startPage.getD 0 ≤ req.endPage.getD 0)
    (hmiss : cacheHit cache (cacheKeyOf req) now = false)
    (hne : finalImageUrls render req ≠ []) :
    (∀ i, req.startPage.getD 0 ≤ i → i ≤ req.endPage.getD 0 →
      jsReplaceOnce (req.urlPattern.getD "") "{page}" (Nat.repr i) ∈ pagesToVisit req) ∧
    (∀ u, u ∈ finalImageUrls render req ↔
      (∃ i, req.startPage.getD 0 ≤ i ∧ i ≤ req.endPage.getD 0 ∧
        u ∈ scrapeUrl render
          (jsReplaceOnce (req.urlPattern.getD "") "{page}" (Nat.repr i)))) ∧
    (finalImageUrls render req).Nodup ∧
    (scrape render uuid now req db cache).outcome =
      .created ⟨newSourceOf uuid req, newImagesOf render uuid now req⟩ ∧
    (newImagesOf render uuid now req).map Image.src = finalImageUrls render req := by
  have hpages : pagesToVisit req =
      (pageRange (req.startPage.getD 0) (req.endPage.getD 0)).map
        (fun i => jsReplaceOnce (req.urlPattern.getD "") "{page}" (Nat.repr i)) := by
    rw [pagesToVisit, if_pos hmp]
  refine ⟨?_, ?_, nodup_finalImageUrls, ?_, buildImages_map_src _ _ _ _ _⟩
  · intro i h1 h2
    rw [hpages]
    exact List.mem_map.mpr ⟨i, mem_pageRange.mpr ⟨h1, h2⟩, rfl⟩
  · intro u
    rw [mem_finalImageUrls]
    constructor
    · rintro ⟨p, hp, hu⟩
      rw [hpages] at hp
      obtain ⟨i, hi, rfl⟩ := List.mem_map.mp hp
      obtain ⟨h1, h2⟩ := mem_pageRange.mp hi
      exact ⟨i, h1, h2, hu⟩
    · rintro ⟨i, h1, h2, hu⟩
      refine ⟨_, ?_, hu⟩
      rw [hpages]
      exact List.mem_map.mpr ⟨i, mem_pageRange.mpr ⟨h1, h2⟩, rfl⟩
  · rw [scrape_eq_core (Or.inr hmp) hmiss, scrapeCore_eq_created hne]

/-- C5 witness: pages 1–3 of `https://a.test/p/{page}` each yield two distinct images;
the crawl visits all three pages and creates exactly six new images. -/
theorem scrape_multipage_witness :
    isMultiPage reqC5 = true ∧
    reqC5.startPage.getD 0 ≤ reqC5.endPage.getD 0 ∧
    cacheHit [] (cacheKeyOf reqC5) 0 = false ∧
    finalImageUrls renC5 reqC5 ≠ [] ∧
    (scrape renC5 "u" 0 reqC5 ⟨[], [], []⟩ []).outcome =
      .created ⟨newSourceOf "u" reqC5, newImagesOf renC5 "u" 0 reqC5⟩ ∧
    (newImagesOf renC5 "u" 0 reqC5).map Image.src = finalImageUrls renC5 reqC5 ∧
    (newImagesOf renC5 "u" 0 reqC5).length = 6 ∧
    pagesToVisit reqC5 =
      ["https://a.test/p/1", "https://a.test/p/2", "https://a.test/p/3"] :=
  ⟨by decide, by decide, by decide, by decide,
   (scrape_multipage renC5 "u" 0 reqC5 ⟨[], [], []⟩ [] (by decide) (by decide)
     (by decide) (by decide)).2.2.2.1,
   (scrape_multipage renC5 "u" 0 reqC5 ⟨[], [], []⟩ [] (by decide) (by decide)
     (by decide) (by decide)).2.2.2.2,
   by decide, by decide⟩

/-! ### C3: image-id uniqueness -/

theorem scrapeCore_outcome_created {render : String → List DomImg} {uuid : String}
    {now : Nat} {req : ScrapeRequest} {db : DbData} {cache : Cache} {key : String}
    {b : ScrapeBundle}
    (h : (scrapeCore render uuid now req db cache key).outcome = .created b) :
    b = ⟨newSourceOf uuid req, newImagesOf render uuid now req⟩ := by
  by_cases hne : finalImageUrls render req = []
  · rw [scrapeCore_eq_empty hne] at h
    cases h
  · rw [scrapeCore_eq_created hne] at h
    exact (ScrapeOutcome.created.inj h).symm

theorem outcome_created_eq {render : String → List DomImg} {uuid : String} {now : Nat}
    {req : ScrapeRequest} {db : DbData} {cache : Cache} {b : ScrapeBundle}
    (h : (scrape render uuid now req db cache).outcome = .created b) :
    b = ⟨newSourceOf uuid req, newImagesOf render uuid now req⟩ := by
  rw [scrape] at h
  by_cases hc : (!truthyStr req.url && !isMultiPage req) = true
  · rw [if_pos hc] at h
    cases h
  · rw [if_neg hc] at h
    cases hget : cacheGet cache (cacheKeyOf req) with
    | some e =>
      simp only [hget] at h
      by_cases hfresh : now - e.timestamp < CACHE_DURATION_MS
      · rw [if_pos hfresh] at h
        cases h
      · rw [if_neg hfresh] at h
        exact scrapeCore_outcome_created h
    | none =>
      simp only [hget] at h
      exact scrapeCore_outcome_created h

/-- C3 counterexample: two single-URL crawls of different targets that share the
timestamp 0 both label their image `scrape_0_0`: the resulting catalog holds two
distinct Image records (different `src`) with equal ids. -/
theorem image_ids_counterexample :
    stepC3b.db.images.map Image.id = ["scrape_0_0", "scrape_0_0"] ∧
    stepC3b.db.images.map Image.src =
      ["https://b.test/y.jpg", "https://a.test/x.jpg"] ∧
    stepC3b.db.images.Nodup :=
  ⟨by decide, by decide, by decide⟩

/-- C3 (amended): within one crawl the created image ids are pairwise distinct, and the
images of two crawl invocations that observe distinct `Date.now()` values have pairwise
distinct ids; uniqueness can fail only for crawls sharing a timestamp. -/
theorem scrape_ids_unique
    (render1 render2 : String → List DomImg) (uuid1 uuid2 : String) (now1 now2 : Nat)
    (req1 req2 : ScrapeRequest) (db1 db2 : DbData) (cache1 cache2 : Cache)
    (b1 b2 : ScrapeBundle)
    (h1 : (scrape render1 uuid1 now1 req1 db1 cache1).outcome = .created b1)
    (h2 : (scrape render2 uuid2 now2 req2 db2 cache2).outcome = .created b2)
    (hne : now1 ≠ now2) :
    (b1.newImages.map Image.id).Nodup ∧
    (b2.newImages.map Image.id).Nodup ∧
    (∀ i1 ∈ b1.newImages, ∀ i2 ∈ b2.newImages, i1.id ≠ i2.id) := by
  have e1 := outcome_created_eq h1
  have e2 := outcome_created_eq h2
  subst e1
  subst e2
  simp only [newImagesOf]
  refine ⟨buildImages_nodup_id _ _ _ _ _, buildImages_nodup_id _ _ _ _ _, ?_⟩
  intro i1 hi1 i2 hi2 heq
  obtain ⟨k1, _, hid1⟩ := buildImages_id _ _ _ _ _ i1 hi1
  obtain ⟨k2, _, hid2⟩ := buildImages_id _ _ _ _ _ i2 hi2
  rw [hid1, hid2] at heq
  exact hne (mkImageId_injective heq).1

/-- C3 witness: the uniqueness theorem applied to two concrete crawls at timestamps 0
and 1. -/
theorem scrape_ids_unique_witness :
    (scrape renC3 "u1" 0 reqC3a ⟨[], [], []⟩ []).outcome = .created bC3w1 ∧
    (scrape renC3 "u2" 1 reqC3b ⟨[], [], []⟩ []).outcome = .created bC3w2 ∧
    (0 : Nat) ≠ 1 ∧
    ((bC3w1.newImages.map Image.id).Nodup ∧
     (bC3w2.newImages.map Image.id).Nodup ∧
     (∀ i1 ∈ bC3w1.newImages, ∀ i2 ∈ bC3w2.newImages, i1.id ≠ i2.id)) :=
  ⟨by decide, by decide, by decide,
   scrape_ids_unique renC3 renC3 "u1" "u2" 0 1 reqC3a reqC3b ⟨[], [], []⟩ ⟨[], [], []⟩
     [] [] bC3w1 bC3w2 (by decide) (by decide) (by decide)⟩

/-! ### C7: sync monotonicity -/

theorem sync_some_shape {render : String → List DomImg} {now : Nat} {db : DbData}
    {sourceId : String} {r : SyncResult} {db' : DbData}
    (h : sync render now db sourceId = some (r, db')) :
    db'.sources = db.sources ∧ db'.favorites = db.favorites ∧
    db'.images = r.newImages ++ db.images := by
  rw [sync] at h
  cases hfind : db.sources.find? (fun s => s.id == sourceId) with
  | none => rw [hfind] at h; cases h
  | some src =>
    rw [hfind] at h
    simp only [Option.some.injEq, Prod.mk.injEq] at h
    obtain ⟨hr, hdb⟩ := h
    rw [← hdb]
    exact ⟨rfl, rfl, by rw [← hr]⟩

theorem mem_recordedSrcs_append {new : List Image} {db db' : DbData} {sourceId u : String}
    (himg : db'.images = new ++ db.images) (hu : u ∈ recordedSrcs db sourceId) :
    u ∈ recordedSrcs db' sourceId := by
  rw [recordedSrcs, himg, List.filter_append, List.map_append]
  exact List.mem_append_right _ hu

theorem syncStep_mono {render : String → List DomImg} {now : Nat} {db : DbData}
    {sourceId u : String} (hu : u ∈ recordedSrcs db sourceId) :
    u ∈ recordedSrcs (match sync render now db sourceId with
      | none => db
      | some (_, d') => d') sourceId := by
  cases hs : sync render now db sourceId with
  | none => exact hu
  | some p =>
    obtain ⟨r, d'⟩ := p
    exact mem_recordedSrcs_append (sync_some_shape hs).2.2 hu

theorem syncSeq_mono (sourceId : String) :
    ∀ (steps : List ((String → List DomImg) × Nat)) (db : DbData) (u : String),
      u ∈ recordedSrcs db sourceId →
      u ∈ recordedSrcs (syncSeq sourceId steps db) sourceId := by
  intro steps
  induction steps with
  | nil => intro db u hu; exact hu
  | cons step rest ih =>
    intro db u hu
    simp only [syncSeq, List.foldl_cons]
    exact ih _ u (syncStep_mono hu)

/-- C7: over any sequence of `sync` calls against one source, the set of `src` values
recorded for that source only grows (every previously recorded URL stays recorded), and
a sync whose freshly found URLs are all already recorded answers the successful empty
result `{newImages: []}` and leaves the catalog unchanged. -/
theorem sync_monotone (sourceId : String) (db : DbData) :
    (∀ (steps : List ((String → List DomImg) × Nat)) (u : String),
      u ∈ recordedSrcs db sourceId →
      u ∈ recordedSrcs (syncSeq sourceId steps db) sourceId) ∧
    (∀ (render : String → List DomImg) (now : Nat) (src : Source),
      db.sources.find? (fun s => s.id == sourceId) = some src →
      (∀ u ∈ scrapeUrl render src.url, u ∈ recordedSrcs db sourceId) →
      sync render now db sourceId = some (⟨[]⟩, db)) := by
  refine ⟨fun steps u hu => syncSeq_mono sourceId steps db u hu, ?_⟩
  intro render now src hfind hfound
  have hfresh : (scrapeUrl render src.url).filter
      (fun u => u ∉ (db.images.filter
        (fun img => img.sourceId = some sourceId)).map Image.src) = [] := by
    rw [List.filter_eq_nil_iff]
    intro u hu
    simp only [decide_eq_true_eq, not_not]
    exact hfound u hu
  simp only [sync, hfind, hfresh, buildImages, List.nil_append]

/-- C7 witness: the monotonicity theorem applied at `dbC7`: the recorded URL survives a
sync that finds a new image, and a sync finding only the recorded URL returns
`{newImages: []}` with the catalog unchanged. -/
theorem sync_monotone_witness :
    "https://s.test/x.jpg" ∈ recordedSrcs dbC7 "s1" ∧
    "https://s.test/x.jpg" ∈ recordedSrcs (syncSeq "s1" [(renC7new, 7)] dbC7) "s1" ∧
    dbC7.sources.find? (fun s => s.id == "s1") = some srcC7 ∧
    sync renC7old 9 dbC7 "s1" = some (⟨[]⟩, dbC7) :=
  ⟨by decide,
   (sync_monotone "s1" dbC7).1 [(renC7new, 7)] "https://s.test/x.jpg" (by decide),
   by decide,
   (sync_monotone "s1" dbC7).2 renC7old 9 srcC7 (by decide) (by decide)⟩

end Scrappback
